import Mathlib

/-!
Verification of the workout-plan generation pipeline of the athleto
repository (`src/app/api/generate-workout/route.ts` and its revisions in
`src/unnamed/part_000` .. `part_002`).

The TypeScript code is shallowly embedded: plans decoded from the model
output become Lean structures, the runtime value checks of the route and
of the zod schemas become executable Bool-valued validators, and the
sequence of database inserts becomes a step function that threads an
oracle deciding the outcome of each insert and accumulates the list of
committed rows in program order.
-/

namespace Athleto

/-! ### Closed vocabularies (route.ts lines 6-21, part_000 lines 12-23) -/

def VALID_MUSCLE_GROUPS : List String :=
  ["chest", "back", "shoulders", "biceps", "triceps",
   "forearms", "core", "quadriceps", "hamstrings",
   "calves", "glutes", "traps", "lats", "lower_back"]

def VALID_WORKOUT_TYPES : List String :=
  ["powerlifting", "bodyweight", "hiit", "strength",
   "cardio", "crossfit", "endurance", "circuit", "isolation"]

def VALID_DIFFICULTIES : List String := ["beginner", "intermediate", "advanced"]

/-! ### Decoded plan shape (route.ts lines 25-52)

The enum-typed TS fields are erased at runtime, so a decoded JSON value
carries arbitrary strings in them; the embedding therefore types every
enum field as `String` and lets the validators check membership, exactly
as the runtime code does. Numeric JSON fields are embedded as `Int`
(the `Number.isInteger` checks of the source are inherent in the type). -/

structure Exercise where
  name : String
  description : String
  sets : Int
  reps : Int
  rest_duration : String
  order_in_workout : Int
  primary_muscles : List String
  secondary_muscles : List String
  equipment_needed : List String
  exercise_type : String
deriving DecidableEq

structure Workout where
  name : String
  description : String
  day_of_week : Int
  estimated_duration : String
  workout_type : String
  exercises : List Exercise
deriving DecidableEq

structure WorkoutPlan where
  description : String
  difficulty : String
  restDays : List Int
  workouts : List Workout
deriving DecidableEq

instance {ε α : Type} [DecidableEq ε] [DecidableEq α] : DecidableEq (Except ε α) :=
  fun x y =>
    match x, y with
    | .ok a, .ok b =>
      if h : a = b then isTrue (by rw [h]) else isFalse (by intro hc; cases hc; exact h rfl)
    | .error a, .error b =>
      if h : a = b then isTrue (by rw [h]) else isFalse (by intro hc; cases hc; exact h rfl)
    | .ok _, .error _ => isFalse (by intro hc; cases hc)
    | .error _, .ok _ => isFalse (by intro hc; cases hc)

/-! ### Duration normalization

Source (part_000 lines 111-114):
  `const minutes = parseInt(duration.replace(/[^0-9]/g, ''));`
  `return isNaN(minutes) || minutes <= 0 ? '30 minutes' : `${minutes} minutes`;`
Source (route.ts lines 104-110) is the same except that only `isNaN`
triggers the default, not `minutes <= 0`.

`replace(/[^0-9]/g, '')` keeps exactly the ASCII digit characters, in
order; `parseInt` on the resulting all-digit string is `NaN` iff the
string is empty and otherwise reads it as a decimal numeral, which the
fold below computes. The template `${minutes}` renders the number in
decimal, which is `Nat.repr`. -/

def digitsToNat (ds : List Char) : Nat :=
  ds.foldl (fun a c => 10 * a + (c.toNat - 48)) 0

def extractDigits (s : String) : List Char :=
  s.data.filter Char.isDigit

/-- part_000 variant: defaults on "no digits" and on value `<= 0`. -/
def parseInterval (duration : String) : String :=
  let ds := extractDigits duration
  if ds.isEmpty then "30 minutes"
  else if digitsToNat ds = 0 then "30 minutes"
  else Nat.repr (digitsToNat ds) ++ " minutes"

/-- route.ts variant: defaults only on "no digits" (`isNaN`). -/
def parseIntervalRoute (duration : String) : String :=
  let ds := extractDigits duration
  if ds.isEmpty then "30 minutes"
  else Nat.repr (digitsToNat ds) ++ " minutes"

/-! ### Rest-day derivation (route.ts lines 64-72, part_000 lines 87-97)

The source shuffles `[1..7]` with `sort(() => 0.5 - Math.random())` (an
arbitrary permutation of the array), slices the first `7 - daysPerWeek`
entries and sorts them ascending. The nondeterministic shuffle is an
explicit argument here; the correctness theorem quantifies over every
permutation of `[1..7]`. -/

def allDays : List Nat := [1, 2, 3, 4, 5, 6, 7]

def validateRestDays (daysPerWeek : Nat) (shuffled : List Nat) : List Nat :=
  List.insertionSort (· ≤ ·) (shuffled.take (7 - daysPerWeek))

/-! ### Muscle-group repair (route.ts lines 74-78) -/

def validateMuscleGroups (muscles : List String) : List String :=
  muscles.filter (fun muscle => VALID_MUSCLE_GROUPS.contains muscle)

/-! ### Plan parse / semantic repair (route.ts lines 80-102)

`parseWorkoutPlanJSON` takes a decoded plan value, rejects it when the
`restDays` check fails and otherwise rewrites every exercise by
filtering its muscle lists against the vocabulary. The
`!Array.isArray(plan.restDays)` and `Number.isInteger(day)` parts of the
source checks are inherent in the `List Int` typing of the embedding. -/

def repairExerciseMuscles (e : Exercise) : Exercise :=
  { e with
    primary_muscles := validateMuscleGroups e.primary_muscles,
    secondary_muscles := validateMuscleGroups e.secondary_muscles }

def parseWorkoutPlanJSON (plan : WorkoutPlan) : Except String WorkoutPlan :=
  if plan.restDays.length > 7 then
    .error "Invalid rest days configuration"
  else if plan.restDays.any (fun day => day < 1 || day > 7) then
    .error "Rest days must be integers between 1 and 7"
  else
    .ok { plan with
          workouts := plan.workouts.map (fun w =>
            { w with exercises := w.exercises.map repairExerciseMuscles }) }

/-! ### The composite semantic-repair step (spec section 4.4 step 5)

Muscle filtering (route.ts lines 92-99) plus duration normalization of
`estimated_duration` / `rest_duration` (applied by the persistence code,
part_000 lines 194 and 211). -/

def repairExercise (e : Exercise) : Exercise :=
  { e with
    rest_duration := parseInterval e.rest_duration,
    primary_muscles := validateMuscleGroups e.primary_muscles,
    secondary_muscles := validateMuscleGroups e.secondary_muscles }

def repairWorkout (w : Workout) : Workout :=
  { w with
    estimated_duration := parseInterval w.estimated_duration,
    exercises := w.exercises.map repairExercise }

def repairPlan (p : WorkoutPlan) : WorkoutPlan :=
  { p with workouts := p.workouts.map repairWorkout }

/-! ### Generated-plan shape validation (part_000 lines 25-52)

The zod schemas of part_000 are embedded as issue collectors: validation
of a value walks every field and collects the path of every violated
constraint (zod reports all issues of an object in one pass); the value
is accepted iff the issue list is empty. String typing of JSON scalars
is inherent in the embedding; the value-level constraints (`min`, `max`,
`positive`, `nonnegative`, `enum`) are checked explicitly below, field
by field in schema order. -/

def issueIf (b : Bool) (path : String) : List String :=
  if b then [path] else []

def exerciseIssues (pre : String) (e : Exercise) : List String :=
  issueIf (e.name.length = 0) (pre ++ "name") ++
  issueIf (e.description.length = 0) (pre ++ "description") ++
  issueIf (decide (e.sets ≤ 0)) (pre ++ "sets") ++
  issueIf (decide (e.reps ≤ 0)) (pre ++ "reps") ++
  issueIf (e.rest_duration.length = 0) (pre ++ "rest_duration") ++
  issueIf (decide (e.order_in_workout < 0)) (pre ++ "order_in_workout") ++
  issueIf (e.primary_muscles.length = 0
           || !(e.primary_muscles.all (fun m => VALID_MUSCLE_GROUPS.contains m)))
    (pre ++ "primary_muscles") ++
  issueIf (!(e.secondary_muscles.all (fun m => VALID_MUSCLE_GROUPS.contains m)))
    (pre ++ "secondary_muscles") ++
  issueIf (!(VALID_WORKOUT_TYPES.contains e.exercise_type)) (pre ++ "exercise_type")

def exercisesIssues (pre : String) : Nat → List Exercise → List String
  | _, [] => []
  | j, e :: es =>
    exerciseIssues (pre ++ Nat.repr j ++ ".") e ++ exercisesIssues pre (j + 1) es

def workoutIssues (pre : String) (w : Workout) : List String :=
  issueIf (w.name.length = 0) (pre ++ "name") ++
  issueIf (w.description.length = 0) (pre ++ "description") ++
  issueIf (decide (w.day_of_week < 1) || decide (7 < w.day_of_week)) (pre ++ "day_of_week") ++
  issueIf (w.estimated_duration.length = 0) (pre ++ "estimated_duration") ++
  issueIf (!(VALID_WORKOUT_TYPES.contains w.workout_type)) (pre ++ "workout_type") ++
  issueIf (w.exercises.length = 0 || 5 < w.exercises.length) (pre ++ "exercises") ++
  exercisesIssues (pre ++ "exercises.") 0 w.exercises

def workoutsIssues : Nat → List Workout → List String
  | _, [] => []
  | i, w :: ws =>
    workoutIssues ("workouts." ++ Nat.repr i ++ ".") w ++ workoutsIssues (i + 1) ws

def restDayIssues : Nat → List Int → List String
  | _, [] => []
  | i, d :: ds =>
    issueIf (decide (d < 1) || decide (7 < d)) ("restDays." ++ Nat.repr i) ++
    restDayIssues (i + 1) ds

/-- Issue list of `WorkoutPlanSchema` (part_000 lines 47-52). Note the
schema puts no lower bound on `workouts` (`z.array(WorkoutSchema)` with
no `.min(1)`). -/
def planIssues (p : WorkoutPlan) : List String :=
  issueIf (p.description.length = 0) "description" ++
  issueIf (!(VALID_DIFFICULTIES.contains p.difficulty)) "difficulty" ++
  restDayIssues 0 p.restDays ++
  workoutsIssues 0 p.workouts

/-! ### Inbound request validation

part_000 lines 54-62: `RequestBodySchema` (zod). route.ts lines 118-121:
a plain JS truthiness check of six fields. -/

inductive ReqField
  | userId
  | goalType
  | workoutType
  | durationWeeks
  | daysPerWeek
  | focusMuscles
deriving DecidableEq

structure RawReq where
  userId : String
  goalType : String
  workoutType : String
  durationWeeks : Int
  daysPerWeek : Int
  focusMuscles : List String
  additionalNotes : Option String
deriving DecidableEq

def isHexDigit (c : Char) : Bool :=
  c.isDigit || ('a' ≤ c && c ≤ 'f') || ('A' ≤ c && c ≤ 'F')

/-- `z.string().uuid()`: the 8-4-4-4-12 hexadecimal shape with hyphens at
positions 8, 13, 18 and 23. -/
def isUuid (s : String) : Bool :=
  s.data.length = 36 &&
  s.data.enum.all (fun ic =>
    if ic.1 = 8 || ic.1 = 13 || ic.1 = 18 || ic.1 = 23 then ic.2 == '-'
    else isHexDigit ic.2)

/-- Whether a field of the inbound body violates its `RequestBodySchema`
constraint (part_000 lines 54-62). -/
def reqViolates (raw : RawReq) : ReqField → Bool
  | .userId => !isUuid raw.userId
  | .goalType => raw.goalType.length = 0
  | .workoutType => !(VALID_WORKOUT_TYPES.contains raw.workoutType)
  | .durationWeeks => !(decide (1 ≤ raw.durationWeeks) && decide (raw.durationWeeks ≤ 52))
  | .daysPerWeek => !(decide (1 ≤ raw.daysPerWeek) && decide (raw.daysPerWeek ≤ 7))
  | .focusMuscles =>
    raw.focusMuscles.isEmpty
    || !(raw.focusMuscles.all (fun m => VALID_MUSCLE_GROUPS.contains m))

def fieldPath : ReqField → String
  | .userId => "userId"
  | .goalType => "goalType"
  | .workoutType => "workoutType"
  | .durationWeeks => "durationWeeks"
  | .daysPerWeek => "daysPerWeek"
  | .focusMuscles => "focusMuscles"

def REQ_FIELDS : List ReqField :=
  [.userId, .goalType, .workoutType, .durationWeeks, .daysPerWeek, .focusMuscles]

/-- zod collects the issues of every violated field of the object in one
parse, in field order. -/
def reqIssues (raw : RawReq) : List String :=
  (REQ_FIELDS.filter (reqViolates raw)).map fieldPath

/-- route.ts body type: raw JSON fields may be absent, hence `Option`. -/
structure RouteBody where
  userId : Option String
  goalType : Option String
  workoutType : Option String
  durationWeeks : Option Int
  daysPerWeek : Option Int
  focusMuscles : Option (List String)
deriving DecidableEq

def truthyStr : Option String → Bool
  | none => false
  | some s => !s.isEmpty

def truthyInt : Option Int → Bool
  | none => false
  | some n => !(n == 0)

def truthyList : Option (List String) → Bool
  | none => false
  | some _ => true

/-- route.ts line 119: `!body.userId || !body.goalType || ...` (JS
truthiness; an array is always truthy). -/
def routeHasRequiredFields (b : RouteBody) : Bool :=
  truthyStr b.userId && truthyStr b.goalType && truthyStr b.workoutType &&
  truthyInt b.durationWeeks && truthyInt b.daysPerWeek && truthyList b.focusMuscles

/-! ### Responses and error-status mapping -/

inductive RespBody
  | success (workoutCount : Nat)
  | failure (error : String) (details : Option (List String))
deriving DecidableEq

structure Resp where
  status : Nat
  body : RespBody
deriving DecidableEq

/-- route.ts lines 118-121: inbound validation failure response; `none`
when the truthiness check passes and the handler continues. -/
def routeInboundResponse (b : RouteBody) : Option Resp :=
  if routeHasRequiredFields b then none
  else some { status := 400, body := .failure "Missing required fields" none }

/-- JS `hay.includes(needle)`: `needle` occurs contiguously in `hay`. -/
def strIncludes (hay needle : String) : Bool :=
  go hay.data
where
  go : List Char → Bool
    | [] => needle.data.isPrefixOf []
    | c :: cs => needle.data.isPrefixOf (c :: cs) || go cs

/-- part_000 lines 364-365: `errorMessage.includes('timeout') ? 504 : 500`. -/
def errStatus (msg : String) : Nat :=
  if strIncludes msg "timeout" then 504 else 500

/-! ### Persistence writes

A database row committed by one insert, with the payload fields the
claims talk about (the remaining columns of the source inserts carry
request data not inspected by any claim). The store is modelled by an
oracle `ok : Nat → Bool` giving the outcome of the n-th attempted
insert; a failed insert commits no row. The trace accumulates committed
rows in program order. -/

inductive Row
  | goal
  | planRow (restDays : List Int)
  | workoutRow (i : Nat) (estimated_duration : String)
  | exerciseRow (i j : Nat) (rest_duration : String) (primary_muscles : List String)
deriving DecidableEq

/-- The error message route.ts throws when the insert of this row fails
(lines 253, 273, 291, 312; the source appends the underlying store
error text, elided here). -/
def rowMsg : Row → String
  | .goal => "Failed to create fitness goal"
  | .planRow _ => "Failed to create workout plan"
  | .workoutRow _ _ => "Failed to create workout"
  | .exerciseRow _ _ _ _ => "Failed to create exercise"

def exerciseRowOf (i j : Nat) (e : Exercise) : Row :=
  .exerciseRow i j (parseIntervalRoute e.rest_duration) e.primary_muscles

def workoutRowOf (i : Nat) (w : Workout) : Row :=
  .workoutRow i (parseIntervalRoute w.estimated_duration)

/-- route.ts lines 294-314: sequential exercise inserts for workout `i`;
the first failure throws immediately, skipping the rest. Returns
(result, committed rows, next insert index). -/
def persistExercises (ok : Nat → Bool) : Nat → Nat → Nat → List Exercise →
    Except String Unit × (List Row × Nat)
  | k, _, _, [] => (.ok (), ([], k))
  | k, i, j, e :: es =>
    if ok k then
      let r := persistExercises ok (k + 1) i (j + 1) es
      (r.1, (exerciseRowOf i j e :: r.2.1, r.2.2))
    else (.error "Failed to create exercise", ([], k + 1))

/-- route.ts lines 276-315: sequential per-workout insert, then that
workout's exercises, then the next workout; failure throws immediately. -/
def persistWorkouts (ok : Nat → Bool) : Nat → Nat → List Workout →
    Except String Unit × (List Row × Nat)
  | k, _, [] => (.ok (), ([], k))
  | k, i, w :: ws =>
    if ok k then
      let re := persistExercises ok (k + 1) i 0 w.exercises
      match re.1 with
      | .ok _ =>
        let rw := persistWorkouts ok re.2.2 (i + 1) ws
        (rw.1, (workoutRowOf i w :: (re.2.1 ++ rw.2.1), rw.2.2))
      | .error m => (.error m, (workoutRowOf i w :: re.2.1, re.2.2))
    else (.error "Failed to create workout", ([], k + 1))

/-- route.ts lines 236-315: goal insert, then plan insert, then workouts;
a failure at any step throws, leaving the earlier committed rows in
place (the source performs no rollback: it issues no delete anywhere). -/
def persistPlan (ok : Nat → Bool) (p : WorkoutPlan) : Except String Unit × List Row :=
  if ok 0 then
    if ok 1 then
      let r := persistWorkouts ok 2 0 p.workouts
      (r.1, Row.goal :: Row.planRow p.restDays :: r.2.1)
    else (.error "Failed to create workout plan", [Row.goal])
  else (.error "Failed to create fitness goal", [])

/-- The rows in the dependency order route.ts issues its inserts:
goal, plan, then for each workout its row followed by its exercises. -/
def exercisesTrace (i : Nat) : Nat → List Exercise → List Row
  | _, [] => []
  | j, e :: es => exerciseRowOf i j e :: exercisesTrace i (j + 1) es

def workoutsTrace : Nat → List Workout → List Row
  | _, [] => []
  | i, w :: ws =>
    workoutRowOf i w :: (exercisesTrace i 0 w.exercises ++ workoutsTrace (i + 1) ws)

def fullTrace (p : WorkoutPlan) : List Row :=
  Row.goal :: Row.planRow p.restDays :: workoutsTrace 0 p.workouts

/-- route.ts lines 205-315: the post-generation path of the canonical
route — parse/repair the decoded plan and, on success, run the insert
sequence; nothing between the two inspects the repaired plan. -/
def routeProcess (ok : Nat → Bool) (raw : WorkoutPlan) : Except String Unit × List Row :=
  match parseWorkoutPlanJSON raw with
  | .ok p => persistPlan ok p
  | .error e => (.error e, [])

/-! ### part_000 persistence and pipeline

part_000 lines 123-219 (`saveWorkoutPlan`/`processWorkout`): the goal and
plan inserts are sequential and checked; the per-workout inserts run
under `Promise.all` (modelled here in program order), a failed workout
insert skips only that workout's exercises while the other workouts
still run, and the first error is surfaced; the exercise insert results
are not checked at all (lines 204-218), so a failed exercise insert is
silent. -/

def savePart000Exercises (ok : Nat → Bool) : Nat → Nat → Nat → List Exercise →
    List Row × Nat
  | k, _, _, [] => ([], k)
  | k, i, j, e :: es =>
    let r := savePart000Exercises ok (k + 1) i (j + 1) es
    if ok k then
      (Row.exerciseRow i j (parseInterval e.rest_duration) e.primary_muscles :: r.1, r.2)
    else r

def savePart000Workouts (ok : Nat → Bool) : Nat → Nat → List Workout →
    Except String Unit × (List Row × Nat)
  | k, _, [] => (.ok (), ([], k))
  | k, i, w :: ws =>
    if ok k then
      let re := savePart000Exercises ok (k + 1) i 0 w.exercises
      let rw := savePart000Workouts ok re.2 (i + 1) ws
      (rw.1, (Row.workoutRow i (parseInterval w.estimated_duration) :: (re.1 ++ rw.2.1),
              rw.2.2))
    else
      let rw := savePart000Workouts ok (k + 1) (i + 1) ws
      (.error "Failed to create workout", rw.2)

def savePart000 (ok : Nat → Bool) (p : WorkoutPlan) : Except String Unit × List Row :=
  if ok 0 then
    if ok 1 then
      let r := savePart000Workouts ok 2 0 p.workouts
      (r.1, Row.goal :: Row.planRow p.restDays :: r.2.1)
    else (.error "Failed to create workout plan", [Row.goal])
  else (.error "Failed to create fitness goal", [])

/-- Outcome of the external generation call wrapped in `withTimeout`
(part_000 lines 67-85, 268-320): either the wall-clock timeout fires
(the promise rejects with `Error('Request timeout')`) or text arrives
and decodes to a plan value. -/
inductive GenOutcome
  | timeout
  | ok (plan : WorkoutPlan)

/-- part_000 lines 239-369 (`POST`): inbound zod parse, generation under
timeout, generated-plan zod parse, persistence; the catch maps a
`ZodError` to 400 with the issue list and any other error to
`message.includes('timeout') ? 504 : 500`. Environment checks, client
construction and prompt construction do not affect the response shape
or the writes and are omitted. -/
def postPart000 (raw : RawReq) (gen : GenOutcome) (ok : Nat → Bool) : Resp × List Row :=
  if reqIssues raw = [] then
    match gen with
    | .timeout =>
      ({ status := errStatus "Request timeout", body := .failure "Request timeout" none }, [])
    | .ok p =>
      if planIssues p = [] then
        let r := savePart000 ok p
        match r.1 with
        | .ok _ => ({ status := 200, body := .success p.workouts.length }, r.2)
        | .error msg => ({ status := errStatus msg, body := .failure msg none }, r.2)
      else
        ({ status := 400, body := .failure "Invalid request data" (some (planIssues p)) }, [])
  else
    ({ status := 400, body := .failure "Invalid request data" (some (reqIssues raw)) }, [])

/-! ### Decimal digits helper for the `Nat.repr` round-trip proofs -/

/-- The big-endian decimal digit characters of `n`; proved below to agree
with `Nat.toDigits 10 n` and hence with `Nat.repr`. -/
def decDigitsBE (n : Nat) : List Char :=
  if _h : n < 10 then [Nat.digitChar n]
  else decDigitsBE (n / 10) ++ [Nat.digitChar (n % 10)]
decreasing_by exact Nat.div_lt_self (by omega) (by omega)

/-! ### Concrete values used by witnesses and counterexamples -/

def exampleExercise : Exercise :=
  { name := "Pushup", description := "Standard pushup", sets := 3, reps := 12,
    rest_duration := "60 seconds", order_in_workout := 1,
    primary_muscles := ["chest"], secondary_muscles := ["triceps"],
    equipment_needed := [], exercise_type := "strength" }

def exampleWorkout : Workout :=
  { name := "Upper body", description := "Push day", day_of_week := 2,
    estimated_duration := "45 minutes", workout_type := "strength",
    exercises := [exampleExercise] }

def examplePlan : WorkoutPlan :=
  { description := "Base plan", difficulty := "beginner", restDays := [6, 7],
    workouts := [exampleWorkout] }

def goodReq : RawReq :=
  { userId := "123e4567-e89b-12d3-a456-426614174000", goalType := "muscle_gain",
    workoutType := "strength", durationWeeks := 4, daysPerWeek := 3,
    focusMuscles := ["chest", "back"], additionalNotes := none }

def planNoWorkouts : WorkoutPlan :=
  { description := "Plan with no sessions", difficulty := "beginner",
    restDays := [6, 7], workouts := [] }

def unknownMuscleExercise : Exercise :=
  { exampleExercise with
    name := "Mystery move"
    primary_muscles := ["wings"]
    secondary_muscles := ["halo"] }

def unknownMuscleWorkout : Workout :=
  { exampleWorkout with exercises := [unknownMuscleExercise] }

def unknownMusclePlan : WorkoutPlan :=
  { description := "Plan", difficulty := "beginner", restDays := [1],
    workouts := [unknownMuscleWorkout] }

def sixExerciseWorkout : Workout :=
  { exampleWorkout with exercises := List.replicate 6 exampleExercise }

def sixExercisePlan : WorkoutPlan :=
  { examplePlan with workouts := [sixExerciseWorkout] }

def emptyRestDaysPlan : WorkoutPlan := { examplePlan with restDays := [] }

def emptyRouteBody : RouteBody :=
  { userId := none, goalType := none, workoutType := none,
    durationWeeks := none, daysPerWeek := none, focusMuscles := none }

def badFieldsReq : RawReq :=
  { goodReq with userId := "nope", daysPerWeek := 9 }

def repairedUnknownMuscleExercise : Exercise :=
  { unknownMuscleExercise with primary_muscles := [], secondary_muscles := [] }

def repairedUnknownMuscleWorkout : Workout :=
  { unknownMuscleWorkout with exercises := [repairedUnknownMuscleExercise] }

def repairedUnknownMusclePlan : WorkoutPlan :=
  { unknownMusclePlan with workouts := [repairedUnknownMuscleWorkout] }

/-! ## Theorems -/

/-! ### Decimal rendering round-trip

`Nat.repr` renders in decimal via the fuel-driven `Nat.toDigitsCore`;
the lemmas below identify it with the structurally recursive
`decDigitsBE` and prove that extracting the digits of a rendered number
reads back the number. -/

theorem toDigitsCore_eq_decDigitsBE :
    ∀ (f n : Nat) (ds : List Char), n < f →
      Nat.toDigitsCore 10 f n ds = decDigitsBE n ++ ds := by
  intro f
  induction f with
  | zero => intro n ds h; omega
  | succ f ih =>
    intro n ds h
    rw [Nat.toDigitsCore]
    by_cases h10 : n / 10 = 0
    · have hn : n < 10 := by omega
      rw [if_pos h10, decDigitsBE, dif_pos hn, Nat.mod_eq_of_lt hn]
      rfl
    · have hn : ¬ n < 10 := by omega
      rw [if_neg h10, ih (n / 10) _ (by omega)]
      conv_rhs => rw [decDigitsBE]
      rw [dif_neg hn, List.append_assoc]
      rfl

theorem repr_data_eq_decDigitsBE (n : Nat) : (Nat.repr n).data = decDigitsBE n := by
  show (Nat.toDigits 10 n).asString.data = decDigitsBE n
  rw [Nat.toDigits, toDigitsCore_eq_decDigitsBE (n + 1) n [] (by omega)]
  simp [List.asString]

theorem digitChar_isDigit {d : Nat} (h : d < 10) : (Nat.digitChar d).isDigit = true := by
  interval_cases d <;> decide

theorem digitChar_val {d : Nat} (h : d < 10) : (Nat.digitChar d).toNat - 48 = d := by
  interval_cases d <;> decide

theorem decDigitsBE_ne_nil (n : Nat) : decDigitsBE n ≠ [] := by
  rw [decDigitsBE]
  split
  · simp
  · simp

theorem decDigitsBE_all_isDigit (n : Nat) : ∀ c ∈ decDigitsBE n, c.isDigit = true := by
  induction n using Nat.strong_induction_on with
  | _ n ih =>
    rw [decDigitsBE]
    split
    · rename_i h
      intro c hc
      rw [List.mem_singleton] at hc
      exact hc ▸ digitChar_isDigit h
    · rename_i h
      intro c hc
      rcases List.mem_append.mp hc with hc | hc
      · exact ih (n / 10) (Nat.div_lt_self (by omega) (by omega)) c hc
      · rw [List.mem_singleton] at hc
        exact hc ▸ digitChar_isDigit (Nat.mod_lt n (by omega))

theorem digitsToNat_append_singleton (l : List Char) (c : Char) :
    digitsToNat (l ++ [c]) = 10 * digitsToNat l + (c.toNat - 48) := by
  simp [digitsToNat, List.foldl_append]

theorem digitsToNat_decDigitsBE (n : Nat) : digitsToNat (decDigitsBE n) = n := by
  induction n using Nat.strong_induction_on with
  | _ n ih =>
    rw [decDigitsBE]
    split
    · rename_i h
      simp [digitsToNat, digitChar_val h]
    · rename_i h
      rw [digitsToNat_append_singleton, ih (n / 10) (Nat.div_lt_self (by omega) (by omega)),
        digitChar_val (Nat.mod_lt n (by omega))]
      omega

theorem digitsToNat_repr (n : Nat) : digitsToNat (Nat.repr n).data = n := by
  rw [repr_data_eq_decDigitsBE]
  exact digitsToNat_decDigitsBE n

theorem data_append (s t : String) : (s ++ t).data = s.data ++ t.data := by
  cases s; cases t; rfl

theorem extractDigits_repr_minutes (n : Nat) :
    extractDigits (Nat.repr n ++ " minutes") = (Nat.repr n).data := by
  show ((Nat.repr n ++ " minutes").data.filter Char.isDigit) = (Nat.repr n).data
  rw [data_append, List.filter_append, repr_data_eq_decDigitsBE,
    List.filter_eq_self.mpr (decDigitsBE_all_isDigit n)]
  have h : (" minutes" : String).data.filter Char.isDigit = [] := by decide
  rw [h, List.append_nil]

/-! ### `parseInterval` characterization and stability -/

theorem parseInterval_repr_minutes {v : Nat} (hv : v ≠ 0) :
    parseInterval (Nat.repr v ++ " minutes") = Nat.repr v ++ " minutes" := by
  rw [parseInterval, extractDigits_repr_minutes]
  have hne : ((Nat.repr v).data).isEmpty = false := by
    rw [repr_data_eq_decDigitsBE]
    simp [List.isEmpty_iff, decDigitsBE_ne_nil]
  rw [if_neg (by simp [hne]), digitsToNat_repr, if_neg hv]

theorem parseInterval_idem (s : String) : parseInterval (parseInterval s) = parseInterval s := by
  by_cases h1 : (extractDigits s).isEmpty
  · have hs : parseInterval s = "30 minutes" := by rw [parseInterval, if_pos h1]
    rw [hs]; decide
  · by_cases h2 : digitsToNat (extractDigits s) = 0
    · have hs : parseInterval s = "30 minutes" := by
        rw [parseInterval, if_neg h1, if_pos h2]
      rw [hs]; decide
    · have hs : parseInterval s = Nat.repr (digitsToNat (extractDigits s)) ++ " minutes" := by
        rw [parseInterval, if_neg h1, if_neg h2]
      rw [hs, parseInterval_repr_minutes h2]

theorem validateMuscleGroups_idem (l : List String) :
    validateMuscleGroups (validateMuscleGroups l) = validateMuscleGroups l := by
  simp [validateMuscleGroups, List.filter_filter]

theorem repairExercise_idem (e : Exercise) :
    repairExercise (repairExercise e) = repairExercise e := by
  simp [repairExercise, parseInterval_idem, validateMuscleGroups_idem]

theorem repairWorkout_idem (w : Workout) :
    repairWorkout (repairWorkout w) = repairWorkout w := by
  simp [repairWorkout, parseInterval_idem, List.map_map, Function.comp,
    repairExercise_idem]

/-- Claim C5: the semantic-repair step (muscle-group filtering together
with duration normalization) is idempotent — repairing an
already-repaired plan returns it unchanged. -/
theorem repairPlan_idempotent (p : WorkoutPlan) : repairPlan (repairPlan p) = repairPlan p := by
  simp [repairPlan, List.map_map, Function.comp, repairWorkout_idem]

/-- Claim C2, counterexample: the normalizer concatenates every digit of
the input rather than taking its first embedded integer — on
`"1h30m"` (first embedded integer 1) it yields `"130 minutes"`, not
`"1 minutes"`; and the route.ts variant does not default on an extracted
value of 0, yielding `"0 minutes"` where the claim requires
`"30 minutes"`. -/
theorem parseInterval_first_integer_cex :
    parseInterval "1h30m" = "130 minutes"
    ∧ "130 minutes" ≠ "1 minutes"
    ∧ parseIntervalRoute "0 sec" = "0 minutes"
    ∧ "0 minutes" ≠ "30 minutes" := by
  refine ⟨by decide, by decide, by decide, by decide⟩

/-- Claim C2, amended: for every input, the normalizer returns
`"<N> minutes"` where N is the decimal reading of all digit characters
of the input concatenated in order; when the input has no digit both
variants return `"30 minutes"`, and when the digits read as 0 the
part_000 variant returns `"30 minutes"` while the route.ts variant
returns `"0 minutes"`. -/
theorem parseInterval_amended (s : String) :
    (extractDigits s = [] →
      parseInterval s = "30 minutes" ∧ parseIntervalRoute s = "30 minutes")
    ∧ (extractDigits s ≠ [] →
      parseIntervalRoute s = Nat.repr (digitsToNat (extractDigits s)) ++ " minutes"
      ∧ (digitsToNat (extractDigits s) = 0 → parseInterval s = "30 minutes")
      ∧ (digitsToNat (extractDigits s) ≠ 0 →
          parseInterval s = Nat.repr (digitsToNat (extractDigits s)) ++ " minutes")) := by
  constructor
  · intro h
    have he : (extractDigits s).isEmpty = true := by simp [List.isEmpty_iff, h]
    constructor
    · rw [parseInterval, if_pos he]
    · rw [parseIntervalRoute, if_pos he]
  · intro h
    have he : ¬ (extractDigits s).isEmpty = true := by simp [List.isEmpty_iff, h]
    refine ⟨by rw [parseIntervalRoute, if_neg he], ?_, ?_⟩
    · intro h0
      rw [parseInterval, if_neg he, if_pos h0]
    · intro h0
      rw [parseInterval, if_neg he, if_neg h0]

/-- Witness for the amended C2: the normative examples of the spec, plus
the digit-concatenation example, evaluated concretely. -/
theorem parseInterval_amended_witness :
    parseInterval "90 sec" = "90 minutes"
    ∧ parseInterval "lots" = "30 minutes"
    ∧ parseInterval "1h30m" = "130 minutes" := by
  refine ⟨?_, ?_, ?_⟩
  · exact (((parseInterval_amended "90 sec").2 (by decide)).2.2 (by decide)).trans (by decide)
  · exact ((parseInterval_amended "lots").1 (by decide)).1
  · exact (((parseInterval_amended "1h30m").2 (by decide)).2.2 (by decide)).trans (by decide)

/-! ### Rest-day derivation (C1) -/

/-- Claim C1: for every `daysPerWeek` in [1,7] and every shuffle outcome
(a permutation of `[1..7]`), `validateRestDays` returns a list of size
`7 - daysPerWeek` whose members lie in [1,7], with no duplicates, sorted
ascending; for `daysPerWeek = 7` it is empty. -/
theorem validateRestDays_spec (d : Nat) (shuffled : List Nat)
    (hd1 : 1 ≤ d) (hd7 : d ≤ 7) (hperm : shuffled.Perm allDays) :
    (validateRestDays d shuffled).length = 7 - d
    ∧ (∀ x ∈ validateRestDays d shuffled, 1 ≤ x ∧ x ≤ 7)
    ∧ (validateRestDays d shuffled).Nodup
    ∧ (validateRestDays d shuffled).Sorted (· ≤ ·)
    ∧ (d = 7 → validateRestDays d shuffled = []) := by
  have hlen : shuffled.length = 7 := by
    rw [hperm.length_eq]; rfl
  have hsortperm := List.perm_insertionSort (α := Nat) (· ≤ ·) (shuffled.take (7 - d))
  refine ⟨?_, ?_, ?_, ?_, ?_⟩
  · rw [validateRestDays, hsortperm.length_eq, List.length_take, hlen]
    omega
  · intro x hx
    rw [validateRestDays] at hx
    have hx2 : x ∈ shuffled.take (7 - d) := hsortperm.mem_iff.mp hx
    have hx3 : x ∈ shuffled := List.mem_of_mem_take hx2
    have hx4 : x ∈ allDays := hperm.mem_iff.mp hx3
    simp only [allDays, List.mem_cons, List.not_mem_nil, or_false] at hx4
    rcases hx4 with rfl | rfl | rfl | rfl | rfl | rfl | rfl <;> omega
  · have h1 : shuffled.Nodup := hperm.nodup_iff.mpr (by decide)
    have h2 : (shuffled.take (7 - d)).Nodup := (List.take_sublist _ _).nodup h1
    exact hsortperm.nodup_iff.mpr h2
  · exact List.sorted_insertionSort (· ≤ ·) _
  · intro h7
    subst h7
    rw [validateRestDays]
    norm_num

/-- Witness for C1 at `daysPerWeek = 3` and a concrete shuffle. -/
theorem validateRestDays_spec_witness :
    (validateRestDays 3 [7, 6, 5, 4, 3, 2, 1]).length = 4
    ∧ (validateRestDays 3 [7, 6, 5, 4, 3, 2, 1]).Sorted (· ≤ ·) := by
  have h := validateRestDays_spec 3 [7, 6, 5, 4, 3, 2, 1] (by decide) (by decide)
    (List.isPerm_iff.mp (by decide))
  exact ⟨h.1, h.2.2.2.1⟩

/-! ### Muscle-group repair during parse (C3) -/

/-- Claim C3: the vocabulary has 14 members; the parse/repair step
succeeds exactly when the restDays check passes, so an invalid muscle
value never by itself causes failure; and in a successful result every
muscle of every exercise is a member of the vocabulary — values outside
it have been filtered out. -/
theorem parseWorkoutPlanJSON_filters (plan : WorkoutPlan) :
    VALID_MUSCLE_GROUPS.length = 14
    ∧ ((∃ p, parseWorkoutPlanJSON plan = .ok p) ↔
        (plan.restDays.length ≤ 7 ∧ ∀ d ∈ plan.restDays, 1 ≤ d ∧ d ≤ 7))
    ∧ (∀ p, parseWorkoutPlanJSON plan = .ok p →
        ∀ w ∈ p.workouts, ∀ e ∈ w.exercises,
          (∀ m ∈ e.primary_muscles, m ∈ VALID_MUSCLE_GROUPS)
          ∧ (∀ m ∈ e.secondary_muscles, m ∈ VALID_MUSCLE_GROUPS)) := by
  refine ⟨by decide, ?_, ?_⟩
  · constructor
    · rintro ⟨p, hp⟩
      rw [parseWorkoutPlanJSON] at hp
      by_cases h1 : plan.restDays.length > 7
      · rw [if_pos h1] at hp; exact absurd hp (by simp)
      · rw [if_neg h1] at hp
        by_cases h2 : plan.restDays.any (fun day => day < 1 || day > 7)
        · rw [if_pos h2] at hp; exact absurd hp (by simp)
        · refine ⟨by omega, ?_⟩
          intro day hday
          have := (List.any_eq_false.mp (Bool.of_not_eq_true h2)) day hday
          simp at this
          omega
    · rintro ⟨h1, h2⟩
      have hc2 : plan.restDays.any (fun day => day < 1 || day > 7) = false := by
        rw [List.any_eq_false]
        intro day hday
        have := h2 day hday
        simp
        omega
      exact ⟨_, by rw [parseWorkoutPlanJSON, if_neg (by omega), if_neg (by simp [hc2])]⟩
  · intro p hp w hw e he
    rw [parseWorkoutPlanJSON] at hp
    by_cases h1 : plan.restDays.length > 7
    · rw [if_pos h1] at hp; exact absurd hp (by simp)
    · rw [if_neg h1] at hp
      by_cases h2 : plan.restDays.any (fun day => day < 1 || day > 7)
      · rw [if_pos h2] at hp; exact absurd hp (by simp)
      · rw [if_neg h2] at hp
        have hp2 : p.workouts = plan.workouts.map (fun w =>
            { w with exercises := w.exercises.map repairExerciseMuscles }) := by
          cases hp; rfl
        rw [hp2] at hw
        obtain ⟨w0, _, rfl⟩ := List.mem_map.mp hw
        simp only [List.mem_map] at he
        obtain ⟨e0, _, rfl⟩ := he
        constructor
        · intro m hm
          have := List.of_mem_filter (p := fun m => VALID_MUSCLE_GROUPS.contains m) hm
          simpa using this
        · intro m hm
          have := List.of_mem_filter (p := fun m => VALID_MUSCLE_GROUPS.contains m) hm
          simpa using this

/-- Witness for C3: a plan whose only exercise names muscles outside the
vocabulary still parses successfully. -/
theorem parseWorkoutPlanJSON_filters_witness :
    ∃ p, parseWorkoutPlanJSON unknownMusclePlan = .ok p :=
  ((parseWorkoutPlanJSON_filters unknownMusclePlan).2.1).mpr (by decide)

/-! ### Generated-plan validation (C4) -/

theorem workoutIssues_ne_nil_of_bad (pre : String) (w : Workout)
    (h : 5 < w.exercises.length ∨ w.exercises.length = 0) :
    workoutIssues pre w ≠ [] := by
  have hc : (decide (w.exercises.length = 0) || decide (5 < w.exercises.length)) = true := by
    rcases h with h | h <;> simp [h]
  have hmem : (pre ++ "exercises") ∈ workoutIssues pre w := by
    rw [workoutIssues]
    simp only [issueIf, hc, if_true, List.mem_append, List.mem_singleton]
    tauto
  exact List.ne_nil_of_mem hmem

theorem workoutsIssues_ne_nil (i : Nat) (ws : List Workout)
    (h : ∃ w ∈ ws, 5 < w.exercises.length ∨ w.exercises.length = 0) :
    workoutsIssues i ws ≠ [] := by
  induction ws generalizing i with
  | nil =>
    rcases h with ⟨w, hw, _⟩
    exact absurd hw (List.not_mem_nil w)
  | cons w ws ih =>
    rcases h with ⟨w0, hw0, hbad⟩
    rcases List.mem_cons.mp hw0 with rfl | hmem
    · rw [workoutsIssues]
      intro hnil
      rw [List.append_eq_nil] at hnil
      exact workoutIssues_ne_nil_of_bad _ _ hbad hnil.1
    · rw [workoutsIssues]
      intro hnil
      rw [List.append_eq_nil] at hnil
      exact ih (i + 1) ⟨w0, hmem, hbad⟩ hnil.2

/-- Claim C4, amended: generated-plan validation rejects a plan in which
some workout has more than 5 exercises or zero exercises, and such a
plan never reaches persistence; however a plan whose workouts list is
empty passes validation (the schema has no lower bound on `workouts`). -/
theorem planValidation_rejects_bad_exercise_counts (p : WorkoutPlan)
    (hbad : ∃ w ∈ p.workouts, 5 < w.exercises.length ∨ w.exercises.length = 0) :
    planIssues p ≠ []
    ∧ ∀ (raw : RawReq) (ok : Nat → Bool), reqIssues raw = [] →
        postPart000 raw (.ok p) ok
          = ({ status := 400,
               body := .failure "Invalid request data" (some (planIssues p)) }, []) := by
  have hne : planIssues p ≠ [] := by
    obtain ⟨x, hx⟩ := List.exists_mem_of_ne_nil _ (workoutsIssues_ne_nil 0 p.workouts hbad)
    refine List.ne_nil_of_mem (a := x) ?_
    rw [planIssues]
    exact List.mem_append.mpr (Or.inr hx)
  refine ⟨hne, ?_⟩
  intro raw ok h
  simp only [postPart000, if_pos h]
  rw [if_neg hne]

/-- Claim C4, counterexample: a decoded plan with an empty workouts list
passes generated-plan validation with no issues and reaches the
persistence step (a goal row and a plan row are written), contradicting
the claim that an empty plan is rejected before persistence. -/
theorem planNoWorkouts_passes_cex :
    planIssues planNoWorkouts = []
    ∧ postPart000 goodReq (.ok planNoWorkouts) (fun _ => true)
      = ({ status := 200, body := .success 0 }, [Row.goal, Row.planRow [6, 7]]) :=
  ⟨by decide, by decide⟩

/-- Witness for the amended C4: a plan whose single workout carries six
exercises is rejected with a nonempty issue list and nothing is written. -/
theorem planValidation_rejects_witness :
    planIssues sixExercisePlan ≠ []
    ∧ postPart000 goodReq (.ok sixExercisePlan) (fun _ => true)
      = ({ status := 400,
           body := .failure "Invalid request data" (some (planIssues sixExercisePlan)) }, []) := by
  have h := planValidation_rejects_bad_exercise_counts sixExercisePlan (by decide)
  exact ⟨h.1, h.2 goodReq (fun _ => true) (by decide)⟩

/-! ### Inbound validation responses (C6) -/

theorem fieldPath_inj : ∀ f g : ReqField, fieldPath f = fieldPath g → f = g := by
  intro f g h
  cases f <;> cases g <;> first | rfl | exact absurd h (by decide)

theorem mem_REQ_FIELDS (f : ReqField) : f ∈ REQ_FIELDS := by
  cases f <;> decide

/-- Claim C6, counterexample: in the canonical route.ts, a body failing
inbound validation is answered 400 with error `"Missing required
fields"` and no details list — not `"Invalid request data"` with a
per-field details list as the claim states. -/
theorem routeInbound_missing_fields_cex :
    routeInboundResponse emptyRouteBody
      = some { status := 400, body := .failure "Missing required fields" none }
    ∧ ("Missing required fields" : String) ≠ "Invalid request data" :=
  ⟨by decide, by decide⟩

/-- Claim C6, amended: in the zod-validated revision (part_000) every
failing body is answered 400 with `"Invalid request data"` and a details
list holding the path of exactly the violated fields (all of them, in
one pass); the canonical route.ts instead answers 400 with `"Missing
required fields"` and no details. -/
theorem inboundValidation_amended :
    (∀ (raw : RawReq) (gen : GenOutcome) (ok : Nat → Bool), reqIssues raw ≠ [] →
       postPart000 raw gen ok
         = ({ status := 400,
              body := .failure "Invalid request data" (some (reqIssues raw)) }, []))
    ∧ (∀ (raw : RawReq) (f : ReqField), reqViolates raw f = true ↔ fieldPath f ∈ reqIssues raw)
    ∧ (∀ b : RouteBody, routeHasRequiredFields b = false →
        routeInboundResponse b
          = some { status := 400, body := .failure "Missing required fields" none }) := by
  refine ⟨?_, ?_, ?_⟩
  · intro raw gen ok h
    simp only [postPart000]
    rw [if_neg h]
  · intro raw f
    constructor
    · intro hv
      exact List.mem_map_of_mem fieldPath (List.mem_filter.mpr ⟨mem_REQ_FIELDS f, hv⟩)
    · intro hm
      obtain ⟨g, hg, hpath⟩ := List.mem_map.mp hm
      have h2 := (List.mem_filter.mp hg).2
      exact (fieldPath_inj g f hpath) ▸ h2
  · intro b hb
    rw [routeInboundResponse, if_neg (by simp [hb])]

/-- Witness for the amended C6: a body with a malformed userId and
daysPerWeek 9 is answered 400 with both field paths in the details. -/
theorem inboundValidation_amended_witness :
    postPart000 badFieldsReq .timeout (fun _ => true)
      = ({ status := 400,
           body := .failure "Invalid request data" (some ["userId", "daysPerWeek"]) }, []) :=
  (inboundValidation_amended.1 badFieldsReq .timeout (fun _ => true) (by decide)).trans
    (by decide)

/-! ### Generation timeout (C7) -/

/-- Claim C7: when the generation call does not resolve within the
configured timeout (part_000's `withTimeout` rejects with "Request
timeout"), the response is HTTP 504 and no row is written to any
table. -/
theorem generation_timeout_504_no_writes (raw : RawReq) (ok : Nat → Bool)
    (h : reqIssues raw = []) :
    postPart000 raw .timeout ok
      = ({ status := 504, body := .failure "Request timeout" none }, []) := by
  simp only [postPart000]
  rw [if_pos h]
  decide

/-- Witness for C7 at a concrete valid request. -/
theorem generation_timeout_504_no_writes_witness :
    postPart000 goodReq .timeout (fun _ => true)
      = ({ status := 504, body := .failure "Request timeout" none }, []) :=
  generation_timeout_504_no_writes goodReq (fun _ => true) (by decide)

/-! ### Persistence write sequence (C8, C9, C10)

The committed-row trace of the insert sequence is characterized against
`fullTrace`: on success it is the whole dependency-ordered row list, and
on failure it is the portion before the failing insert, whose row kind
determines the surfaced error message. -/

theorem persistExercises_spec (ok : Nat → Bool) :
    ∀ (es : List Exercise) (k i j : Nat),
      ((persistExercises ok k i j es).1 = .ok ()
        ∧ (persistExercises ok k i j es).2.1 = exercisesTrace i j es)
      ∨ ∃ pre r suf, exercisesTrace i j es = pre ++ r :: suf
          ∧ (persistExercises ok k i j es).1 = .error (rowMsg r)
          ∧ (persistExercises ok k i j es).2.1 = pre := by
  intro es
  induction es with
  | nil =>
    intro k i j
    left
    exact ⟨rfl, rfl⟩
  | cons e es ih =>
    intro k i j
    by_cases hk : ok k
    · rcases ih (k + 1) i (j + 1) with ⟨hok, htr⟩ | ⟨pre, r, suf, h1, h2, h3⟩
      · left
        constructor
        · simp only [persistExercises, if_pos hk]
          exact hok
        · simp only [persistExercises, if_pos hk, exercisesTrace]
          rw [htr]
      · right
        refine ⟨exerciseRowOf i j e :: pre, r, suf, ?_, ?_, ?_⟩
        · rw [exercisesTrace, h1]
          rfl
        · simp only [persistExercises, if_pos hk]
          exact h2
        · simp only [persistExercises, if_pos hk]
          rw [h3]
    · right
      refine ⟨[], exerciseRowOf i j e, exercisesTrace i (j + 1) es, rfl, ?_, ?_⟩
      · simp only [persistExercises, if_neg hk]
        rfl
      · simp only [persistExercises, if_neg hk]

theorem persistWorkouts_spec (ok : Nat → Bool) :
    ∀ (ws : List Workout) (k i : Nat),
      ((persistWorkouts ok k i ws).1 = .ok ()
        ∧ (persistWorkouts ok k i ws).2.1 = workoutsTrace i ws)
      ∨ ∃ pre r suf, workoutsTrace i ws = pre ++ r :: suf
          ∧ (persistWorkouts ok k i ws).1 = .error (rowMsg r)
          ∧ (persistWorkouts ok k i ws).2.1 = pre := by
  intro ws
  induction ws with
  | nil =>
    intro k i
    left
    exact ⟨rfl, rfl⟩
  | cons w ws ih =>
    intro k i
    by_cases hk : ok k
    · rcases hre : persistExercises ok (k + 1) i 0 w.exercises with ⟨res, tr2, k2⟩
      rcases persistExercises_spec ok w.exercises (k + 1) i 0 with
        ⟨heok, hetr⟩ | ⟨pre, r, suf, hA, hB, hC⟩
      · rw [hre] at heok hetr
        simp only at heok hetr
        subst heok
        rcases ih k2 (i + 1) with ⟨hwok, hwtr⟩ | ⟨pre, r, suf, hA, hB, hC⟩
        · left
          constructor
          · simp only [persistWorkouts, if_pos hk, hre]
            exact hwok
          · simp only [persistWorkouts, if_pos hk, hre, workoutsTrace]
            rw [hetr, hwtr]
        · right
          refine ⟨workoutRowOf i w :: (tr2 ++ pre), r, suf, ?_, ?_, ?_⟩
          · rw [workoutsTrace, hetr, hA]
            simp
          · simp only [persistWorkouts, if_pos hk, hre]
            exact hB
          · simp only [persistWorkouts, if_pos hk, hre]
            rw [hC]
      · rw [hre] at hB hC
        simp only at hB hC
        subst hB
        subst hC
        right
        refine ⟨workoutRowOf i w :: tr2, r, suf ++ workoutsTrace (i + 1) ws, ?_, ?_, ?_⟩
        · rw [workoutsTrace, hA]
          simp
        · simp only [persistWorkouts, if_pos hk, hre]
        · simp only [persistWorkouts, if_pos hk, hre]
    · right
      refine ⟨[], workoutRowOf i w,
        exercisesTrace i 0 w.exercises ++ workoutsTrace (i + 1) ws, rfl, ?_, ?_⟩
      · simp only [persistWorkouts, if_neg hk]
        rfl
      · simp only [persistWorkouts, if_neg hk]

/-- Claim C8: the committed-row trace of the canonical route's insert
sequence is always an initial segment of the dependency-ordered
`fullTrace` (goal first, then plan, then each workout followed by its
exercises — so the goal insert completes before the plan insert, which
completes before any workout insert); on success the whole sequence is
written; on failure the result is the error message naming the failing
step, the rows after the failing insert are never attempted, and the
rows committed before it remain in the trace (no rollback). -/
theorem persistPlan_sequence (p : WorkoutPlan) (ok : Nat → Bool) :
    (∃ t, fullTrace p = (persistPlan ok p).2 ++ t)
    ∧ ((persistPlan ok p).1 = .ok () → (persistPlan ok p).2 = fullTrace p)
    ∧ (∀ msg, (persistPlan ok p).1 = .error msg →
        ∃ r suf, fullTrace p = (persistPlan ok p).2 ++ r :: suf ∧ msg = rowMsg r) := by
  by_cases h0 : ok 0
  · by_cases h1 : ok 1
    · rcases hre : persistWorkouts ok 2 0 p.workouts with ⟨res, tr, k2⟩
      have hp : persistPlan ok p = (res, Row.goal :: Row.planRow p.restDays :: tr) := by
        simp only [persistPlan, if_pos h0, if_pos h1, hre]
      rcases persistWorkouts_spec ok p.workouts 2 0 with ⟨hok, htr⟩ | ⟨pre, r, suf, hA, hB, hC⟩
      · rw [hre] at hok htr
        simp only at hok htr
        subst hok
        subst htr
        refine ⟨⟨[], by rw [hp, fullTrace]; simp⟩, ?_, ?_⟩
        · intro _
          rw [hp, fullTrace]
        · intro msg hmsg
          rw [hp] at hmsg
          exact absurd hmsg (by simp)
      · rw [hre] at hB hC
        simp only at hB hC
        subst hB
        subst hC
        refine ⟨⟨r :: suf, ?_⟩, ?_, ?_⟩
        · rw [hp, fullTrace, hA]
          simp
        · intro hok
          rw [hp] at hok
          exact absurd hok (by simp)
        · intro msg hmsg
          rw [hp] at hmsg
          simp only [Except.error.injEq] at hmsg
          exact ⟨r, suf, by rw [hp, fullTrace, hA]; simp, hmsg.symm⟩
    · have hp : persistPlan ok p = (.error "Failed to create workout plan", [Row.goal]) := by
        simp only [persistPlan, if_pos h0, if_neg h1]
      refine ⟨⟨Row.planRow p.restDays :: workoutsTrace 0 p.workouts,
        by rw [hp, fullTrace]; rfl⟩, ?_, ?_⟩
      · intro hok
        rw [hp] at hok
        exact absurd hok (by simp)
      · intro msg hmsg
        rw [hp] at hmsg
        simp only [Except.error.injEq] at hmsg
        exact ⟨Row.planRow p.restDays, workoutsTrace 0 p.workouts,
          by rw [hp, fullTrace]; rfl, hmsg.symm⟩
  · have hp : persistPlan ok p = (.error "Failed to create fitness goal", []) := by
      simp only [persistPlan, if_neg h0]
    refine ⟨⟨fullTrace p, by rw [hp]; rfl⟩, ?_, ?_⟩
    · intro hok
      rw [hp] at hok
      exact absurd hok (by simp)
    · intro msg hmsg
      rw [hp] at hmsg
      simp only [Except.error.injEq] at hmsg
      exact ⟨Row.goal, Row.planRow p.restDays :: workoutsTrace 0 p.workouts,
        by rw [hp, fullTrace]; rfl, hmsg.symm⟩

/-- Witness for C8: with every insert succeeding, the concrete example
plan commits exactly its full dependency-ordered trace. -/
theorem persistPlan_sequence_witness :
    (persistPlan (fun _ => true) examplePlan).2 = fullTrace examplePlan :=
  (persistPlan_sequence examplePlan (fun _ => true)).2.1 (by decide)

theorem persistExercises_allOk :
    ∀ (es : List Exercise) (k i j : Nat),
      persistExercises (fun _ => true) k i j es
        = (.ok (), (exercisesTrace i j es, k + es.length)) := by
  intro es
  induction es with
  | nil =>
    intro k i j
    simp [persistExercises, exercisesTrace]
  | cons e es ih =>
    intro k i j
    simp [persistExercises, exercisesTrace, ih (k + 1) i (j + 1)]
    omega

theorem persistWorkouts_allOk :
    ∀ (ws : List Workout) (k i : Nat),
      ∃ k2, persistWorkouts (fun _ => true) k i ws
        = (.ok (), (workoutsTrace i ws, k2)) := by
  intro ws
  induction ws with
  | nil =>
    intro k i
    exact ⟨k, by simp [persistWorkouts, workoutsTrace]⟩
  | cons w ws ih =>
    intro k i
    obtain ⟨k3, h3⟩ := ih (k + 1 + w.exercises.length) (i + 1)
    refine ⟨k3, ?_⟩
    simp [persistWorkouts, workoutsTrace, persistExercises_allOk w.exercises (k + 1) i 0, h3]

theorem persistPlan_allOk (p : WorkoutPlan) :
    persistPlan (fun _ => true) p = (.ok (), fullTrace p) := by
  obtain ⟨k2, h⟩ := persistWorkouts_allOk p.workouts 2 0
  simp [persistPlan, h, fullTrace]

/-- Claim C9: a decoded plan whose only exercise names muscles entirely
outside the vocabulary parses successfully into a plan whose exercise is
left with empty `primary_muscles`, and the canonical route persists it
unchanged — no later validation rejects it. -/
theorem unknownMuscles_persisted :
    parseWorkoutPlanJSON unknownMusclePlan = .ok repairedUnknownMusclePlan
    ∧ (∀ w ∈ repairedUnknownMusclePlan.workouts, ∀ e ∈ w.exercises,
        e.primary_muscles = [])
    ∧ repairedUnknownMusclePlan.workouts.length = 1
    ∧ (∀ w ∈ repairedUnknownMusclePlan.workouts, w.exercises.length = 1)
    ∧ routeProcess (fun _ => true) unknownMusclePlan
      = (.ok (), [Row.goal, Row.planRow [1], Row.workoutRow 0 "45 minutes",
                  Row.exerciseRow 0 0 "60 minutes" []]) :=
  ⟨by decide, by decide, by decide, by decide, by decide⟩

/-- Claim C10: the canonical route's parser accepts every plan whose
restDays list has at most 7 entries each in [1,7] — with no relation to
`daysPerWeek` (which the parser does not even receive) and no comparison
against the prompt-derived rest-day set — and the accepted restDays are
persisted unchanged in the plan row. -/
theorem restDays_passthrough (raw : WorkoutPlan)
    (h1 : raw.restDays.length ≤ 7) (h2 : ∀ d ∈ raw.restDays, 1 ≤ d ∧ d ≤ 7) :
    ∃ p, parseWorkoutPlanJSON raw = .ok p
      ∧ p.restDays = raw.restDays
      ∧ routeProcess (fun _ => true) raw = (.ok (), fullTrace p)
      ∧ (fullTrace p).getD 1 Row.goal = Row.planRow raw.restDays := by
  have hc2 : raw.restDays.any (fun day => day < 1 || day > 7) = false := by
    rw [List.any_eq_false]
    intro d hd
    have := h2 d hd
    simp
    omega
  have hp : parseWorkoutPlanJSON raw
      = .ok { raw with workouts := raw.workouts.map (fun w =>
          { w with exercises := w.exercises.map repairExerciseMuscles }) } := by
    rw [parseWorkoutPlanJSON, if_neg (by omega), if_neg (by simp [hc2])]
  refine ⟨_, hp, rfl, ?_, rfl⟩
  simp only [routeProcess, hp]
  exact persistPlan_allOk _

/-- Witness for C10: the empty restDays list — in particular one that
cannot have size `7 - daysPerWeek` for any valid `daysPerWeek` — is
accepted and persisted as-is. -/
theorem restDays_passthrough_witness :
    (∃ p, parseWorkoutPlanJSON emptyRestDaysPlan = .ok p
      ∧ p.restDays = emptyRestDaysPlan.restDays
      ∧ routeProcess (fun _ => true) emptyRestDaysPlan = (.ok (), fullTrace p)
      ∧ (fullTrace p).getD 1 Row.goal = Row.planRow emptyRestDaysPlan.restDays)
    ∧ emptyRestDaysPlan.restDays = [] :=
  ⟨restDays_passthrough emptyRestDaysPlan (by decide) (by decide), by decide⟩

end Athleto
